import Mathlib

/-!
Verification development for the compatibility-resolution and test-matrix
parameterization engine of the `qai_hub_models` repository.

The definitions below are a shallow embedding of:
* `qai_hub_models/models/common.py` (`Precision`, `QAIRTVersion.ParsedFramework`,
  `TargetRuntime`),
* `qai_hub_models/scorecard/execution_helpers.py`
  (`get_enabled_test_precisions`, `get_model_test_precisions`,
  `get_model_test_parameterizations`).

Strings are modelled as `String` / `List Char`; Python regular expressions are
embedded as the explicit matching functions they denote on ASCII input (the
only input the code ever sees for these patterns).  Python functions that can
raise become `Except String` values.
-/

/-- Modelled from the external `qai_hub.client` package: `QuantizeDtype`, the
dtypes AI Hub quantize jobs support.  The members used by this repository
(canonical `Precision` instances and `TargetRuntime.supports_precision`) are
INT4, INT8 and INT16. -/
inductive QuantizeDtype
  | INT4
  | INT8
  | INT16
deriving DecidableEq

/-- Python `QuantizeDtype.<member>.name`. -/
def QuantizeDtype.name : QuantizeDtype → String
  | .INT4 => "INT4"
  | .INT8 => "INT8"
  | .INT16 => "INT16"

/-- Python `name in QuantizeDtype._member_names_` / `QuantizeDtype[name]`,
combined into one total lookup. -/
def QuantizeDtype.fromName (s : String) : Option QuantizeDtype :=
  if s = "INT4" then some .INT4
  else if s = "INT8" then some .INT8
  else if s = "INT16" then some .INT16
  else none

/-- `_FloatDtype` from `models/common.py`: floating-point precision types not
in `QuantizeDtype`; currently only FP16. -/
inductive FloatDtype
  | FP16
deriving DecidableEq

/-- Python `_FloatDtype.FP16.name`. -/
def FloatDtype.name : FloatDtype → String
  | .FP16 => "FP16"

/-- Python `name in _FloatDtype._member_names_` / `_FloatDtype[name]`. -/
def FloatDtype.fromName (s : String) : Option FloatDtype :=
  if s = "FP16" then some .FP16 else none

/-- `Precision` from `models/common.py`: a quantization configuration.
`override_type` is `QuantizeDtype | _FloatDtype | None` in the source. -/
structure Precision where
  weights_type : Option QuantizeDtype
  activations_type : Option QuantizeDtype
  override_type : Option (QuantizeDtype ⊕ FloatDtype)
deriving DecidableEq

/-- `Precision._allowed_override_dtypes = {QuantizeDtype.INT16, _FloatDtype.FP16}`. -/
def Precision.allowed_override_dtypes : List (QuantizeDtype ⊕ FloatDtype) :=
  [Sum.inl QuantizeDtype.INT16, Sum.inr FloatDtype.FP16]

/-- `Precision.__init__`: validates that `override_type`, when given, is one of
the allowed override dtypes, raising `ValueError` otherwise. -/
def Precision.make (weights activations : Option QuantizeDtype)
    (override : Option (QuantizeDtype ⊕ FloatDtype)) : Except String Precision :=
  match override with
  | some o =>
    if Precision.allowed_override_dtypes.contains o then
      Except.ok ⟨weights, activations, some o⟩
    else
      Except.error "Invalid override_type. Supported: INT16,FP16"
  | none => Except.ok ⟨weights, activations, none⟩

def Precision.float : Precision := ⟨none, none, none⟩

def Precision.w8a8 : Precision := ⟨some .INT8, some .INT8, none⟩

def Precision.w8a16 : Precision := ⟨some .INT8, some .INT16, none⟩

def Precision.w16a16 : Precision := ⟨some .INT16, some .INT16, none⟩

def Precision.w4a16 : Precision := ⟨some .INT4, some .INT16, none⟩

def Precision.w4 : Precision := ⟨some .INT4, none, none⟩

def Precision.w8a8_mixed_int16 : Precision :=
  ⟨some .INT8, some .INT8, some (Sum.inl .INT16)⟩

def Precision.w8a16_mixed_int16 : Precision :=
  ⟨some .INT8, some .INT16, some (Sum.inl .INT16)⟩

def Precision.w8a8_mixed_fp16 : Precision :=
  ⟨some .INT8, some .INT8, some (Sum.inr .FP16)⟩

def Precision.w8a16_mixed_fp16 : Precision :=
  ⟨some .INT8, some .INT16, some (Sum.inr .FP16)⟩

/-- Splits the longest leading run of ASCII digits off a character list
(the behaviour of a greedy `\d*` at the current position). -/
def takeDigits : List Char → List Char × List Char
  | [] => ([], [])
  | c :: rest =>
    if c.isDigit then
      let p := takeDigits rest
      (c :: p.1, p.2)
    else ([], c :: rest)

/-- One optional group `(x\d+)?` of the precision regexes: at the current
position, greedily match the letter `letter` followed by at least one digit.
Returns the matched group (with the letter, as `re` group values do) and the
remaining input; on no match consumes nothing. -/
def matchTok (letter : Char) : List Char → Option (List Char) × List Char
  | [] => (none, [])
  | c :: rest =>
    if c = letter then
      let p := takeDigits rest
      if p.1 = [] then (none, c :: rest) else (some (c :: p.1), p.2)
    else (none, c :: rest)

/-- `re.match(r"(w\d+)?(a\d+)?", s)`: both groups optional, matched in order
from the start of the string.  Returns (group 1, group 2). -/
def matchWA (l : List Char) : Option (List Char) × Option (List Char) :=
  let w := matchTok 'w' l
  let a := matchTok 'a' w.2
  (w.1, a.1)

/-- `re.match(r"(a\d+)?(w\d+)?", s)`.  Returns (group 1, group 2). -/
def matchAW (l : List Char) : Option (List Char) × Option (List Char) :=
  let a := matchTok 'a' l
  let w := matchTok 'w' a.2
  (a.1, w.1)

/-- `re.match(r"(.*)_mixed_(.*)", s)` on newline-free input: the pattern
matches iff `"_mixed_"` occurs in `s`; group 2 (the only group the source
reads) is everything after the last occurrence, because group 1 is greedy. -/
def afterLastMixed : List Char → Option (List Char)
  | [] => none
  | c :: rest =>
    match afterLastMixed rest with
    | some r => some r
    | none =>
      if "_mixed_".toList.isPrefixOf (c :: rest) then
        some ((c :: rest).drop 7)
      else none

/-- Python `.name` on a member of the `QuantizeDtype | _FloatDtype` union. -/
def overrideDtypeName : QuantizeDtype ⊕ FloatDtype → String
  | Sum.inl q => q.name
  | Sum.inr f => f.name

/-- `Precision._is_allowed_override_dtype`: the candidate override enum name
is the name of one of the allowed override dtypes. -/
def is_allowed_override_dtype (enum_name : String) : Bool :=
  Precision.allowed_override_dtypes.any fun otype =>
    enum_name == overrideDtypeName otype

/-- The per-token bit-width validation loop of `Precision.parse`:
`if enum_name not in QuantizeDtype._member_names_: raise ValueError(...)`,
skipped when the token is absent. -/
def checkBitWidth (enum_name : Option String) (bit_width : Option (List Char))
    (nm : String) : Except String Unit :=
  match bit_width with
  | none => Except.ok ()
  | some bw =>
    match enum_name with
    | none => Except.ok ()
    | some en =>
      if (QuantizeDtype.fromName en).isSome then Except.ok ()
      else
        Except.error ("Unsupported bit width " ++ String.mk bw ++
          " for quantization " ++ nm ++ ". Supported: INT4,INT8,INT16")

/-- The override validation of `Precision.parse`: raise when an override token
was found whose upper-cased name is not an allowed override dtype name. -/
def checkOverrideName : Option String → Except String Unit
  | none => Except.ok ()
  | some oname =>
    if is_allowed_override_dtype oname then Except.ok ()
    else Except.error ("Invalid override type " ++ oname ++ ". Supported: INT16,FP16")

/-- The override resolution of `Precision.parse`: try `QuantizeDtype` first,
then `_FloatDtype`. -/
def resolveOverride : Option String → Option (QuantizeDtype ⊕ FloatDtype)
  | none => none
  | some oname =>
    match QuantizeDtype.fromName oname with
    | some q => some (Sum.inl q)
    | none => (FloatDtype.fromName oname).map Sum.inr

/-- The tail of `Precision.parse` after the `_mixed_` suffix and the
`wN`/`aN` tokens have been extracted. -/
def finishParse (otype_enum_name : Option String)
    (wtype atype : Option (List Char)) : Except String Precision := do
  if atype = none ∧ wtype = none then
    throw "Unsupported quantization type string. Example valid strings: float, w8a16, a8w8, w8, a16, ..."
  let atype_enum_name := atype.map fun t => "INT" ++ String.mk (t.drop 1)
  let wtype_enum_name := wtype.map fun t => "INT" ++ String.mk (t.drop 1)
  checkBitWidth atype_enum_name atype "activations"
  checkBitWidth wtype_enum_name wtype "weights"
  checkOverrideName otype_enum_name
  let otype := resolveOverride otype_enum_name
  Precision.make (wtype_enum_name.bind QuantizeDtype.fromName)
    (atype_enum_name.bind QuantizeDtype.fromName) otype

/-- `Precision.parse` from `models/common.py`, on the character list of the
input string: `"float"` matches exactly first; otherwise the `_mixed_` suffix
and then the `wN`/`aN` tokens are extracted (two regex passes, weights-first
and activations-first, merged with Python `or`). -/
def Precision.parseList (l : List Char) : Except String Precision :=
  if l = "float".toList then Except.ok Precision.float
  else
    let first := matchWA l
    let second := matchAW l
    finishParse ((afterLastMixed l).map fun t => String.mk (t.map Char.toUpper))
      (first.1.or second.2) (first.2.or second.1)

/-- `Precision.parse` on strings. -/
def Precision.parse (s : String) : Except String Precision :=
  Precision.parseList s.toList

/-- `Precision.__str__`. -/
def Precision.toStr (p : Precision) : String :=
  if p = Precision.float then "float"
  else
    let precision_name :=
      (match p.weights_type with
        | some w => "w" ++ String.mk (w.name.toList.drop 3)
        | none => "") ++
      (match p.activations_type with
        | some a => "a" ++ String.mk (a.name.toList.drop 3)
        | none => "")
    match p.override_type with
    | some o =>
      precision_name ++ "_mixed_" ++
        String.mk ((overrideDtypeName o).toList.map Char.toLower)
    | none => precision_name

/-- `Precision.has_quantized_activations`.  In the source the test
`self.activations_type not in _FloatDtype` is vacuously true because
`activations_type` is typed `QuantizeDtype | None`; the membership test on
`override_type` selects the `QuantizeDtype` side of the union. -/
def Precision.has_quantized_activations (p : Precision) : Bool :=
  p.activations_type.isSome ||
    (match p.override_type with
      | some (Sum.inl _) => true
      | _ => false)

/-- `Precision.has_float_activations`.  `self.activations_type in _FloatDtype`
is vacuously false (`activations_type` is typed `QuantizeDtype | None`). -/
def Precision.has_float_activations (p : Precision) : Bool :=
  p.activations_type.isNone ||
    (match p.override_type with
      | some (Sum.inr _) => true
      | _ => false)

/-- `Precision.has_float_weights`. -/
def Precision.has_float_weights (p : Precision) : Bool :=
  match p.override_type with
  | none => p.weights_type.isNone
  | some (Sum.inr _) => true
  | some (Sum.inl _) => false

/-- `QAIRTVersion.ParsedFramework` from `models/common.py`: a QAIRT version
parsed into components, plus any related tags. -/
structure ParsedFramework where
  major : Nat
  minor : Nat
  patch : Option Nat
  ident : Option (List Char)
  flavor : Option (List Char)
  tags : List String
deriving DecidableEq

/-- Python `int` on a decimal digit string. -/
def digitsToNat (ds : List Char) : Nat :=
  ds.foldl (fun acc c => acc * 10 + (c.toNat - '0'.toNat)) 0

/-- The optional `(?P<patch>\.\d+)?` group of the QAIRT version regex: a dot
followed by a greedy digit run; the group value is `int(r[1:])`. -/
def matchPatch (l : List Char) : Option Nat × List Char :=
  match l with
  | '.' :: rest =>
    let p := takeDigits rest
    if p.1 = [] then (none, l) else (some (digitsToNat p.1), p.2)
  | _ => (none, l)

/-- The optional `(?P<ident>\.\d+\_?\d+)?` group: after a dot, a digit run,
optionally an underscore and a second digit run.  With regex backtracking a
bare digit run of length ≥ 2 also matches (split between the two `\d+`);
a length-1 run with no `_<digits>` continuation does not.  The group value is
`r[1:]` (the leading dot stripped). -/
def matchIdent (l : List Char) : Option (List Char) × List Char :=
  match l with
  | '.' :: rest =>
    let p := takeDigits rest
    if p.1 = [] then (none, l)
    else
      match p.2 with
      | '_' :: rest2 =>
        let q := takeDigits rest2
        if q.1 ≠ [] then (some (p.1 ++ '_' :: q.1), q.2)
        else if 2 ≤ p.1.length then (some p.1, p.2)
        else (none, l)
      | _ =>
        if 2 ≤ p.1.length then (some p.1, p.2)
        else (none, l)
  | _ => (none, l)

/-- The optional `(?P<flavor>\-.*)?` group on newline-free input: a dash
followed by the rest of the string; the group value is `r[1:]`. -/
def matchFlavor (l : List Char) : Option (List Char) :=
  match l with
  | '-' :: rest => some rest
  | _ => none

/-- The QAIRT version pattern
`v?(?P<major>\d+)\.(?P<minor>\d+)(?P<patch>\.\d+)?(?P<ident>\.\d+\_?\d+)?(?P<flavor>\-.*)?`
matched at the current position, after the optional leading `v`. -/
def matchVersionCore (s : List Char) : Option ParsedFramework :=
  let mj := takeDigits s
  if mj.1 = [] then none
  else
    match mj.2 with
    | '.' :: r2 =>
      let mn := takeDigits r2
      if mn.1 = [] then none
      else
        let pa := matchPatch mn.2
        let idt := matchIdent pa.2
        let fl := matchFlavor idt.2
        some ⟨digitsToNat mj.1, digitsToNat mn.1, pa.1, idt.1, fl, []⟩
    | _ => none

/-- The QAIRT version pattern matched at the current position, including the
optional leading `v` (which, when present, must be followed by the rest of the
pattern for the match at this position to succeed). -/
def matchVersionAt (l : List Char) : Option ParsedFramework :=
  match l with
  | c :: t => if c = 'v' then matchVersionCore t else matchVersionCore (c :: t)
  | [] => matchVersionCore []

/-- `re.search` with the QAIRT version pattern: the match at the leftmost
position where the pattern matches. -/
def searchVersion : List Char → Option ParsedFramework
  | [] => none
  | c :: t =>
    match matchVersionAt (c :: t) with
    | some p => some p
    | none => searchVersion t

/-- `QAIRTVersion.ParsedFramework.parse_opt` (with the default `tags=None`,
which becomes the empty tag list). -/
def ParsedFramework.parse_opt (version : String) : Option ParsedFramework :=
  searchVersion version.toList

/-- `QAIRTVersion.ParsedFramework.version_eq`: major/minor exact, patch equal
unless unset on either side, ident a string-prefix of the other unless unset
on either side, flavor equal unless unset on either side. -/
def ParsedFramework.version_eq (a b : ParsedFramework) : Bool :=
  (a.major == b.major) && (a.minor == b.minor) &&
    (match a.patch, b.patch with
      | some p, some q => p == q
      | _, _ => true) &&
    (match a.ident, b.ident with
      | some x, some y => x.isPrefixOf y || y.isPrefixOf x
      | _, _ => true) &&
    (match a.flavor, b.flavor with
      | some x, some y => x == y
      | _, _ => true)

/-- `TargetRuntime` from `models/common.py`: a compilation target. -/
inductive TargetRuntime
  | TFLITE
  | QNN_DLC
  | QNN_CONTEXT_BINARY
  | ONNX
  | PRECOMPILED_QNN_ONNX
  | GENIE
  | ONNXRUNTIME_GENAI
deriving DecidableEq

/-- `TargetRuntime.is_aot_compiled`: membership in
`[QNN_CONTEXT_BINARY, PRECOMPILED_QNN_ONNX, GENIE, ONNXRUNTIME_GENAI]`. -/
def TargetRuntime.is_aot_compiled : TargetRuntime → Bool
  | .QNN_CONTEXT_BINARY => true
  | .PRECOMPILED_QNN_ONNX => true
  | .GENIE => true
  | .ONNXRUNTIME_GENAI => true
  | _ => false

/-- `TargetRuntime.is_exclusively_for_genai`: membership in
`[GENIE, ONNXRUNTIME_GENAI]`. -/
def TargetRuntime.is_exclusively_for_genai : TargetRuntime → Bool
  | .GENIE => true
  | .ONNXRUNTIME_GENAI => true
  | _ => false

/-- Modelled from the spec: `SpecialPrecisionSetting` from
`qai_hub_models/scorecard/envvars.py` (which is not under `src/`): the
special keywords that may appear in the precision override environment
variable, mixed with literal precision strings. -/
inductive SpecialPrecisionSetting
  | DEFAULT
  | DEFAULT_MINUS_FLOAT
  | DEFAULT_QUANTIZED
  | BENCH
deriving DecidableEq

/-- Python `.value` of a special precision setting. -/
def SpecialPrecisionSetting.value : SpecialPrecisionSetting → String
  | .DEFAULT => "DEFAULT"
  | .DEFAULT_MINUS_FLOAT => "DEFAULT_MINUS_FLOAT"
  | .DEFAULT_QUANTIZED => "DEFAULT_QUANTIZED"
  | .BENCH => "BENCH"

/-- `get_enabled_test_precisions` from `execution_helpers.py`.  The parsed
environment value `EnabledPrecisionsEnvvar.get()` — a collection whose
elements are either `SpecialPrecisionSetting` members or literal precision
strings (modelled from the spec; `envvars.py` is not under `src/`) — is taken
as the argument `precisions_set`.  Raising `ValueError` becomes
`Except.error`; the special-setting count check happens before any literal
precision string is parsed, exactly as in the source. -/
def get_enabled_test_precisions
    (precisions_set : List (SpecialPrecisionSetting ⊕ String)) :
    Except String (Option SpecialPrecisionSetting × List Precision) :=
  let precisions_special_settings := precisions_set.filterMap fun p =>
    match p with
    | Sum.inl s => some s
    | Sum.inr _ => none
  match precisions_special_settings with
  | s0 :: s1 :: _ =>
    Except.error ("Multiple special settings found in precision list." ++
      "Cannot set both " ++ s0.value ++ " and " ++ s1.value ++ ".")
  | _ => do
    let parsed ← (precisions_set.filterMap fun p =>
      match p with
      | Sum.inl _ => none
      | Sum.inr s => some s).mapM fun p => Precision.parse p.trim
    return (precisions_special_settings.head?, parsed)

/-- Python set insertion: the effect of adding one element to the `set` of
enabled precisions, on the duplicate-free list representing that set. -/
def setInsert (s : List Precision) (x : Precision) : List Precision :=
  if x ∈ s then s else s ++ [x]

/-- Python `set.update`. -/
def setUpdate (s : List Precision) (xs : List Precision) : List Precision :=
  xs.foldl setInsert s

/-- Python `set.remove`. -/
def setRemove (s : List Precision) (x : Precision) : List Precision :=
  s.filter fun y => y != x

/-- `get_model_test_precisions` from `execution_helpers.py`.  The environment
read is passed as arguments: `special_precision_setting` and
`extra_enabled_precisions` are the two components of
`get_enabled_test_precisions()`; `bench_w8a8_models` / `bench_w8a16_models`
stand for `get_bench_pytorch_w8a8_models()` / `get_bench_pytorch_w8a16_models()`
(the internal list module is not under `src/`; on `ImportError` the source
substitutes functions returning `[]`).  The Python `set` of enabled
precisions is represented by a duplicate-free list. -/
def get_model_test_precisions
    (bench_w8a8_models bench_w8a16_models : List String)
    (special_precision_setting : Option SpecialPrecisionSetting)
    (extra_enabled_precisions : List Precision)
    (model_id : String) (model_supported_precisions : List Precision)
    (can_use_quantize_job : Bool) : List Precision :=
  let e : List Precision := []
  let e := if special_precision_setting = some .DEFAULT ∨
      special_precision_setting = some .DEFAULT_MINUS_FLOAT then
    setUpdate e model_supported_precisions
  else e
  let e := if special_precision_setting = some .DEFAULT_MINUS_FLOAT ∧
      Precision.float ∈ e then
    setRemove e Precision.float
  else e
  let e := if special_precision_setting = some .DEFAULT_QUANTIZED then
    setInsert e (if Precision.w8a16 ∈ model_supported_precisions then
      Precision.w8a16 else Precision.w8a8)
  else e
  let e := if special_precision_setting = some .BENCH then
    let e := if Precision.float ∈ model_supported_precisions then
      setInsert e Precision.float else e
    let e := if Precision.w8a8 ∈ model_supported_precisions ∧
        model_id ∈ bench_w8a8_models then
      setInsert e Precision.w8a8 else e
    if Precision.w8a16 ∈ model_supported_precisions ∧
        model_id ∈ bench_w8a16_models then
      setInsert e Precision.w8a16 else e
  else e
  if can_use_quantize_job then setUpdate e extra_enabled_precisions
  else setUpdate e (model_supported_precisions.filter fun p =>
    decide (p ∈ extra_enabled_precisions))

/-- Modelled from the spec: the two scorecard path classes
(`ScorecardCompilePath` and `ScorecardProfilePath`), i.e. the `path_type`
argument of `get_model_test_parameterizations`. -/
inductive PathKind
  | compile
  | profile
deriving DecidableEq

/-- Modelled from the spec: a scorecard path — a member of one of the two
path enums, identified by its member name and class, wrapping a target
runtime (`path.runtime`).  Members of different classes are never equal. -/
structure ScorecardPath where
  name : String
  kind : PathKind
  runtime : TargetRuntime
deriving DecidableEq

/-- Modelled from the spec: a `ScorecardDevice` catalog entry — name, enabled
flag, mirror flag, the NPU precision-support predicate, and the compile-path
and profile-path lists the device exposes. -/
structure ScorecardDevice where
  name : String
  enabled : Bool
  mirror : Bool
  npu_supports_precision : Precision → Bool
  compile_paths : List ScorecardPath
  profile_paths : List ScorecardPath

/-- Python `dict.get(precision, [])` on a `{Precision: list[TargetRuntime]}`
mapping represented as an association list. -/
def dictGet (d : List (Precision × List TargetRuntime)) (k : Precision) :
    List TargetRuntime :=
  match d.find? fun kv => decide (kv.1 = k) with
  | some kv => kv.2
  | none => []

/-- The path-list construction of `get_model_test_parameterizations` for one
precision: the catalog enumeration `path_type.all_paths(enabled=True,
supports_precision=precision, include_genai_paths=only_include_genai_paths)`
(passed in as `all_paths`; the path catalog is not under `src/` and is
modelled from the spec), then the GenAI/AOT/JIT mode filter, then the
supported-paths filter (skipped when `include_unsupported_paths` is set), and
finally the unconditional timeout filter. -/
def filteredPathList
    (all_paths : PathKind → Precision → Bool → List ScorecardPath)
    (supported_paths timeout_paths : List (Precision × List TargetRuntime))
    (path_kind : PathKind) (include_unsupported_paths : Bool)
    (requires_aot_prepare only_include_genai_paths : Bool)
    (precision : Precision) : List ScorecardPath :=
  let path_list := all_paths path_kind precision only_include_genai_paths
  let path_list :=
    if only_include_genai_paths then
      path_list.filter fun path => path.runtime.is_exclusively_for_genai
    else if requires_aot_prepare then
      path_list.filter fun path => path.runtime.is_aot_compiled
    else
      path_list.filter fun path => ! path.runtime.is_aot_compiled
  let path_list :=
    if ! include_unsupported_paths then
      path_list.filter fun path =>
        decide (path.runtime ∈ dictGet supported_paths precision)
    else path_list
  path_list.filter fun path =>
    decide (path.runtime ∉ dictGet timeout_paths precision)

/-- Python `devices or ScorecardDevice.all_devices(is_mirror=False)`: a
missing — or, by Python truthiness, empty — explicit device list falls back
to the catalog's non-mirror device enumeration (`all_devices_not_mirror`,
modelled from the spec; the device catalog is not under `src/`). -/
def effectiveDevices (devices : Option (List ScorecardDevice))
    (all_devices_not_mirror : List ScorecardDevice) : List ScorecardDevice :=
  match devices with
  | some (d :: ds) => d :: ds
  | _ => all_devices_not_mirror

/-- The inner device loop of `get_model_test_parameterizations` for one
(precision, path) pair: skip devices that are disabled, whose NPU does not
support the precision, or that expose the path in neither their compile-path
nor their profile-path list; every other device yields a triple. -/
def deviceTriples (device_list : List ScorecardDevice) (precision : Precision)
    (sc_path : ScorecardPath) :
    List (Precision × ScorecardPath × ScorecardDevice) :=
  device_list.filterMap fun device =>
    if ! device.enabled || ! device.npu_supports_precision precision then none
    else if sc_path ∉ device.compile_paths ∧ sc_path ∉ device.profile_paths then
      none
    else some (precision, sc_path, device)

/-- `get_model_test_parameterizations` from `execution_helpers.py`.
Environment reads and catalog enumerations are passed as arguments:
`special_precision_setting` / `extra_enabled_precisions` are the components
of `get_enabled_test_precisions()`, `ignore_known_failures` is
`IgnoreKnownFailuresEnvvar.get()` (the default for
`include_unsupported_paths`), `all_paths` is the catalog enumeration
`path_type.all_paths(enabled=True, supports_precision=·,
include_genai_paths=·)` and `all_devices_not_mirror` is
`ScorecardDevice.all_devices(is_mirror=False)` (both enumerations modelled
from the spec; the catalogs are not under `src/`). -/
def get_model_test_parameterizations
    (all_paths : PathKind → Precision → Bool → List ScorecardPath)
    (all_devices_not_mirror : List ScorecardDevice)
    (bench_w8a8_models bench_w8a16_models : List String)
    (special_precision_setting : Option SpecialPrecisionSetting)
    (extra_enabled_precisions : List Precision)
    (ignore_known_failures : Bool)
    (model_id : String)
    (supported_paths timeout_paths : List (Precision × List TargetRuntime))
    (path_kind : PathKind)
    (can_use_quantize_job : Bool)
    (devices : Option (List ScorecardDevice))
    (include_unsupported_paths : Option Bool)
    (requires_aot_prepare : Bool)
    (only_include_genai_paths : Bool) :
    List (Precision × ScorecardPath × ScorecardDevice) :=
  let include_unsupported := include_unsupported_paths.getD ignore_known_failures
  let test_precisions := get_model_test_precisions bench_w8a8_models
    bench_w8a16_models special_precision_setting extra_enabled_precisions
    model_id (supported_paths.map Prod.fst) can_use_quantize_job
  test_precisions.flatMap fun precision =>
    (filteredPathList all_paths supported_paths timeout_paths path_kind
      include_unsupported requires_aot_prepare only_include_genai_paths
      precision).flatMap fun sc_path =>
        deviceTriples (effectiveDevices devices all_devices_not_mirror)
          precision sc_path

/-- A TFLITE compile path used in concrete examples. -/
def tflitePath : ScorecardPath :=
  ⟨"tflite", PathKind.compile, TargetRuntime.TFLITE⟩

/-- An ONNX compile path used in concrete examples. -/
def onnxPath : ScorecardPath :=
  ⟨"onnx", PathKind.compile, TargetRuntime.ONNX⟩

/-- An enabled non-mirror device exposing the two example compile paths and
supporting every precision on its NPU. -/
def exampleDevice : ScorecardDevice :=
  ⟨"cs_example", true, false, fun _ => true, [tflitePath, onnxPath], []⟩

/-- A path catalog whose every enumeration returns the two example compile
paths. -/
def exampleAllPaths : PathKind → Precision → Bool → List ScorecardPath :=
  fun _ _ _ => [tflitePath, onnxPath]

theorem takeDigits_append {d : List Char} (r : List Char) (hd : ∀ c ∈ d, c.isDigit) :
    takeDigits (d ++ r) = (d ++ (takeDigits r).1, (takeDigits r).2) := by
  induction d with
  | nil => simp
  | cons c d ih =>
    have hc : c.isDigit := hd c (List.mem_cons_self ..)
    simp [takeDigits, hc, ih fun x hx => hd x (List.mem_cons_of_mem _ hx)]

theorem takeDigits_not_digit {c : Char} (r : List Char) (hc : ¬ c.isDigit) :
    takeDigits (c :: r) = ([], c :: r) := by
  simp [takeDigits, hc]

theorem matchTok_pos {letter : Char} {n r : List Char} (hn : n ≠ [])
    (hd : ∀ c ∈ n, c.isDigit) (hr : takeDigits r = ([], r)) :
    matchTok letter (letter :: (n ++ r)) = (some (letter :: n), r) := by
  simp [matchTok, takeDigits_append r hd, hr, hn]

theorem matchTok_pos_nil {letter : Char} {n : List Char} (hn : n ≠ [])
    (hd : ∀ c ∈ n, c.isDigit) :
    matchTok letter (letter :: n) = (some (letter :: n), []) := by
  have h := @matchTok_pos letter n [] hn hd rfl
  simpa using h

theorem matchTok_neg {letter c : Char} (l : List Char) (hc : c ≠ letter) :
    matchTok letter (c :: l) = (none, c :: l) := by
  simp [matchTok, hc]

theorem afterLastMixed_eq_none {l : List Char} (h : ∀ c ∈ l, c ≠ '_') :
    afterLastMixed l = none := by
  induction l with
  | nil => rfl
  | cons c rest ih =>
    have hrest := ih fun x hx => h x (List.mem_cons_of_mem _ hx)
    have hc : ('_' == c) = false :=
      beq_eq_false_iff_ne.mpr (Ne.symm (h c (List.mem_cons_self ..)))
    have h7 : "_mixed_".toList = '_' :: "mixed_".toList := rfl
    have hpre : "_mixed_".toList.isPrefixOf (c :: rest) = false := by
      rw [h7]
      simp [List.isPrefixOf, hc]
    simp only [afterLastMixed, hrest, hpre]
    simp

theorem digit_ne_underscore {c : Char} (hd : c.isDigit) : c ≠ '_' := by
  intro heq
  rw [heq] at hd
  exact absurd hd (by decide)

/-- C6: for every one of the ten canonical `Precision` instances `p`,
`Precision.parse (str p)` succeeds and returns `p` (round-trip of the
canonical instances through `__str__` and `parse`). -/
theorem C6_canonical_precision_roundtrip :
    Precision.parse (Precision.toStr Precision.float) = Except.ok Precision.float ∧
    Precision.parse (Precision.toStr Precision.w8a8) = Except.ok Precision.w8a8 ∧
    Precision.parse (Precision.toStr Precision.w8a16) = Except.ok Precision.w8a16 ∧
    Precision.parse (Precision.toStr Precision.w16a16) = Except.ok Precision.w16a16 ∧
    Precision.parse (Precision.toStr Precision.w4a16) = Except.ok Precision.w4a16 ∧
    Precision.parse (Precision.toStr Precision.w4) = Except.ok Precision.w4 ∧
    Precision.parse (Precision.toStr Precision.w8a8_mixed_int16) =
      Except.ok Precision.w8a8_mixed_int16 ∧
    Precision.parse (Precision.toStr Precision.w8a16_mixed_int16) =
      Except.ok Precision.w8a16_mixed_int16 ∧
    Precision.parse (Precision.toStr Precision.w8a8_mixed_fp16) =
      Except.ok Precision.w8a8_mixed_fp16 ∧
    Precision.parse (Precision.toStr Precision.w8a16_mixed_fp16) =
      Except.ok Precision.w8a16_mixed_fp16 :=
  ⟨rfl, rfl, rfl, rfl, rfl, rfl, rfl, rfl, rfl, rfl⟩

/-- C7: `Precision.parse` is order-independent in its weight/activation
tokens: `parse "a16w8" = parse "w8a16"`, and in general for any nonempty
ASCII digit runs `n` and `m` the strings `w<n>a<m>` and `a<m>w<n>` parse to
the same result. -/
theorem C7_parse_token_order_independent :
    Precision.parse "a16w8" = Precision.parse "w8a16" ∧
    ∀ n m : List Char, n ≠ [] → m ≠ [] → (∀ c ∈ n, c.isDigit) →
      (∀ c ∈ m, c.isDigit) →
      Precision.parseList ('w' :: (n ++ 'a' :: m)) =
        Precision.parseList ('a' :: (m ++ 'w' :: n)) := by
  refine ⟨rfl, fun n m hn hm hdn hdm => ?_⟩
  have hwa : ¬ ('a' : Char).isDigit := by decide
  have hww : ¬ ('w' : Char).isDigit := by decide
  have htw : matchTok 'w' ('w' :: (n ++ 'a' :: m)) = (some ('w' :: n), 'a' :: m) :=
    matchTok_pos hn hdn (takeDigits_not_digit m hwa)
  have hta : matchTok 'a' ('a' :: m) = (some ('a' :: m), []) :=
    matchTok_pos_nil hm hdm
  have hta2 : matchTok 'a' ('a' :: (m ++ 'w' :: n)) = (some ('a' :: m), 'w' :: n) :=
    matchTok_pos hm hdm (takeDigits_not_digit n hww)
  have htw2 : matchTok 'w' ('w' :: n) = (some ('w' :: n), []) :=
    matchTok_pos_nil hn hdn
  have hWA1 : matchWA ('w' :: (n ++ 'a' :: m)) = (some ('w' :: n), some ('a' :: m)) := by
    simp [matchWA, htw, hta]
  have hAW1 : matchAW ('w' :: (n ++ 'a' :: m)) = (none, some ('w' :: n)) := by
    simp [matchAW, matchTok_neg _ (by decide : ('w' : Char) ≠ 'a'), htw]
  have hWA2 : matchWA ('a' :: (m ++ 'w' :: n)) = (none, some ('a' :: m)) := by
    simp [matchWA, matchTok_neg _ (by decide : ('a' : Char) ≠ 'w'), hta2]
  have hAW2 : matchAW ('a' :: (m ++ 'w' :: n)) = (some ('a' :: m), some ('w' :: n)) := by
    simp [matchAW, hta2, htw2]
  have hmix1 : afterLastMixed ('w' :: (n ++ 'a' :: m)) = none := by
    refine afterLastMixed_eq_none fun c hc => ?_
    rcases List.mem_cons.mp hc with h | h
    · rw [h]; decide
    rcases List.mem_append.mp h with h | h
    · exact digit_ne_underscore (hdn c h)
    rcases List.mem_cons.mp h with h | h
    · rw [h]; decide
    · exact digit_ne_underscore (hdm c h)
  have hmix2 : afterLastMixed ('a' :: (m ++ 'w' :: n)) = none := by
    refine afterLastMixed_eq_none fun c hc => ?_
    rcases List.mem_cons.mp hc with h | h
    · rw [h]; decide
    rcases List.mem_append.mp h with h | h
    · exact digit_ne_underscore (hdm c h)
    rcases List.mem_cons.mp h with h | h
    · rw [h]; decide
    · exact digit_ne_underscore (hdn c h)
  have hfl1 : ('w' :: (n ++ 'a' :: m)) ≠ "float".toList := by
    intro h
    have h2 : 'w' :: (n ++ 'a' :: m) = 'f' :: "loat".toList := h
    exact absurd (List.head_eq_of_cons_eq h2) (by decide)
  have hfl2 : ('a' :: (m ++ 'w' :: n)) ≠ "float".toList := by
    intro h
    have h2 : 'a' :: (m ++ 'w' :: n) = 'f' :: "loat".toList := h
    exact absurd (List.head_eq_of_cons_eq h2) (by decide)
  rw [Precision.parseList, Precision.parseList, if_neg hfl1, if_neg hfl2]
  simp only [hWA1, hAW1, hWA2, hAW2, hmix1, hmix2, Option.map_none, Option.or]

/-- Witness for C7: the general order-independence statement applied at the
concrete digit runs `8` and `16`, i.e. `parse "w8a16" = parse "a16w8"`. -/
theorem C7_parse_token_order_independent_witness :
    Precision.parseList ('w' :: (['8'] ++ 'a' :: ['1', '6'])) =
      Precision.parseList ('a' :: (['1', '6'] ++ 'w' :: ['8'])) :=
  C7_parse_token_order_independent.2 ['8'] ['1', '6'] (by decide) (by decide)
    (by decide) (by decide)

/-- C8: for `p = Precision.parse "w8a8_mixed_fp16"`, `has_quantized_activations`
is true (the base INT8 activations remain quantized) and `has_float_activations`
is also true (the FP16 mixed override gives the sensitive layers float
activation semantics). -/
theorem C8_mixed_fp16_activation_semantics :
    Precision.parse "w8a8_mixed_fp16" = Except.ok Precision.w8a8_mixed_fp16 ∧
    Precision.w8a8_mixed_fp16.has_quantized_activations = true ∧
    Precision.w8a8_mixed_fp16.has_float_activations = true :=
  ⟨rfl, rfl, rfl⟩

theorem digit_ne {c d : Char} (hc : c.isDigit) (hd : ¬ d.isDigit) : c ≠ d :=
  fun h => hd (h ▸ hc)

theorem takeDigits_all {d : List Char} (hd : ∀ c ∈ d, c.isDigit) :
    takeDigits d = (d, []) := by
  have h := @takeDigits_append d [] hd
  simpa [takeDigits] using h

/-- C9: version equality treats a missing patch as a wildcard but compares
patches exactly when both are present: for every pair of decimal digit runs
`a`, `b` (i.e. every valid non-negative integer pair), parsing `"a.b"` and
`"a.b.0"` yields versions with `version_eq` true, while the parses of
`"2.37.1"` and `"2.37.2"` have `version_eq` false. -/
theorem C9_version_eq_patch_wildcard :
    (∀ a b : List Char, a ≠ [] → b ≠ [] → (∀ c ∈ a, c.isDigit) →
      (∀ c ∈ b, c.isDigit) →
      ∃ x y : ParsedFramework,
        ParsedFramework.parse_opt (String.mk (a ++ '.' :: b)) = some x ∧
        ParsedFramework.parse_opt (String.mk (a ++ '.' :: (b ++ ['.', '0']))) = some y ∧
        x.version_eq y = true) ∧
    (∃ x y : ParsedFramework,
      ParsedFramework.parse_opt "2.37.1" = some x ∧
      ParsedFramework.parse_opt "2.37.2" = some y ∧
      x.version_eq y = false) := by
  constructor
  · intro a b ha hb hda hdb
    obtain ⟨c0, a0, rfl⟩ := List.exists_cons_of_ne_nil ha
    have hc0 : c0.isDigit := hda c0 (List.mem_cons_self ..)
    have hne_v : ¬ c0 = 'v' := digit_ne hc0 (by decide)
    have hdot : ¬ ('.' : Char).isDigit := by decide
    have htd1 : takeDigits (c0 :: (a0 ++ '.' :: b)) = (c0 :: a0, '.' :: b) := by
      have h := @takeDigits_append (c0 :: a0) ('.' :: b) hda
      simpa [takeDigits_not_digit _ hdot] using h
    have hcore1 : matchVersionCore (c0 :: (a0 ++ '.' :: b)) =
        some ⟨digitsToNat (c0 :: a0), digitsToNat b, none, none, none, []⟩ := by
      simp [matchVersionCore, htd1, takeDigits_all hdb, hb, matchPatch,
        matchIdent, matchFlavor]
    have htd2 : takeDigits (c0 :: (a0 ++ '.' :: (b ++ ['.', '0']))) =
        (c0 :: a0, '.' :: (b ++ ['.', '0'])) := by
      have h := @takeDigits_append (c0 :: a0) ('.' :: (b ++ ['.', '0'])) hda
      simpa [takeDigits_not_digit _ hdot] using h
    have htdb2 : takeDigits (b ++ ['.', '0']) = (b, ['.', '0']) := by
      have h := @takeDigits_append b ['.', '0'] hdb
      simpa [takeDigits_not_digit _ hdot] using h
    have h0 : takeDigits ['0'] = (['0'], []) := rfl
    have hdn0 : digitsToNat ['0'] = 0 := rfl
    have hcore2 : matchVersionCore (c0 :: (a0 ++ '.' :: (b ++ ['.', '0']))) =
        some ⟨digitsToNat (c0 :: a0), digitsToNat b, some 0, none, none, []⟩ := by
      simp [matchVersionCore, htd2, htdb2, hb, matchPatch, matchIdent,
        matchFlavor, h0, hdn0]
    refine ⟨⟨digitsToNat (c0 :: a0), digitsToNat b, none, none, none, []⟩,
      ⟨digitsToNat (c0 :: a0), digitsToNat b, some 0, none, none, []⟩, ?_, ?_, ?_⟩
    · show searchVersion ((c0 :: a0) ++ '.' :: b) = _
      rw [List.cons_append]
      simp only [searchVersion, matchVersionAt, if_neg hne_v, hcore1]
    · show searchVersion ((c0 :: a0) ++ '.' :: (b ++ ['.', '0'])) = _
      rw [List.cons_append]
      simp only [searchVersion, matchVersionAt, if_neg hne_v, hcore2]
    · simp [ParsedFramework.version_eq]
  · exact ⟨⟨2, 37, some 1, none, none, []⟩, ⟨2, 37, some 2, none, none, []⟩,
      rfl, rfl, rfl⟩

/-- Witness for C9: the patch-wildcard statement applied at the concrete pair
(1, 2), i.e. `parse "1.2"` and `parse "1.2.0"` compare version-equal. -/
theorem C9_version_eq_patch_wildcard_witness :
    ∃ x y : ParsedFramework,
      ParsedFramework.parse_opt (String.mk (['1'] ++ '.' :: ['2'])) = some x ∧
      ParsedFramework.parse_opt
        (String.mk (['1'] ++ '.' :: (['2'] ++ ['.', '0']))) = some y ∧
      x.version_eq y = true :=
  C9_version_eq_patch_wildcard.1 ['1'] ['2'] (by decide) (by decide)
    (by decide) (by decide)

theorem mem_setInsert {s : List Precision} {x y : Precision} :
    y ∈ setInsert s x ↔ y ∈ s ∨ y = x := by
  by_cases h : x ∈ s
  · simp only [setInsert, if_pos h]
    constructor
    · exact Or.inl
    · rintro (hy | rfl)
      · exact hy
      · exact h
  · simp [setInsert, if_neg h]

theorem mem_setUpdate {xs : List Precision} :
    ∀ {s : List Precision} {y : Precision},
      y ∈ setUpdate s xs ↔ y ∈ s ∨ y ∈ xs := by
  induction xs with
  | nil => simp [setUpdate]
  | cons x xs ih =>
    intro s y
    have h : setUpdate s (x :: xs) = setUpdate (setInsert s x) xs := rfl
    rw [h, ih, mem_setInsert]
    simp [List.mem_cons]
    tauto

theorem setInsert_nodup {s : List Precision} (h : s.Nodup) (x : Precision) :
    (setInsert s x).Nodup := by
  by_cases hx : x ∈ s
  · simpa [setInsert, hx] using h
  · simp only [setInsert, if_neg hx]
    exact h.append (List.nodup_singleton x)
      (fun a ha hax => hx ((List.mem_singleton.mp hax) ▸ ha))

theorem setUpdate_nodup {xs : List Precision} :
    ∀ {s : List Precision}, s.Nodup → (setUpdate s xs).Nodup := by
  induction xs with
  | nil => exact fun h => h
  | cons x xs ih => exact fun h => ih (setInsert_nodup h x)

theorem setRemove_nodup {s : List Precision} (h : s.Nodup) (x : Precision) :
    (setRemove s x).Nodup :=
  List.Nodup.filter _ h

theorem nodup_ite {α : Type} {c : Prop} [Decidable c] {a b : List α}
    (ha : a.Nodup) (hb : b.Nodup) : (if c then a else b).Nodup := by
  split <;> assumption

theorem get_model_test_precisions_nodup
    (bench8 bench16 : List String) (sp : Option SpecialPrecisionSetting)
    (extra : List Precision) (model_id : String) (sup : List Precision)
    (cq : Bool) :
    (get_model_test_precisions bench8 bench16 sp extra model_id sup cq).Nodup := by
  simp only [get_model_test_precisions]
  repeat'
    first
    | exact List.nodup_nil
    | apply setUpdate_nodup
    | apply setInsert_nodup
    | apply setRemove_nodup
    | apply nodup_ite

/-- C3: with no special keyword active and `can_use_quantize_job = False`,
`get_model_test_precisions` returns exactly the intersection of the literal
environment precision overrides with the model's declared supported
precisions; in particular with literal overrides `[w8a8, w8a16]` and a model
declaring only `w8a8`, the result is exactly `[w8a8]`. -/
theorem C3_no_quantize_job_intersection :
    (∀ (bench8 bench16 : List String) (extra : List Precision)
      (model_id : String) (sup : List Precision),
      (get_model_test_precisions bench8 bench16 none extra model_id sup
        false).toFinset = sup.toFinset ∩ extra.toFinset) ∧
    get_model_test_precisions [] [] none [Precision.w8a8, Precision.w8a16] "m"
      [Precision.w8a8] false = [Precision.w8a8] := by
  constructor
  · intro bench8 bench16 extra model_id sup
    ext x
    simp [get_model_test_precisions, mem_setUpdate, List.mem_filter]
  · rfl

/-- C10: if environment resolution yields no special precision setting and an
empty literal override list, `get_model_test_precisions` returns the empty
list for every model id, every declared supported-precision set, and both
values of `can_use_quantize_job`: model-declared defaults are only enabled by
a DEFAULT-family keyword. -/
theorem C10_no_overrides_yield_no_precisions
    (bench8 bench16 : List String) (model_id : String)
    (sup : List Precision) (can_use_quantize_job : Bool) :
    get_model_test_precisions bench8 bench16 none [] model_id sup
      can_use_quantize_job = [] := by
  cases can_use_quantize_job <;>
    simp [get_model_test_precisions, setUpdate, List.filter_eq_nil_iff]

/-- C5: if the environment precision override list contains two distinct
special keywords, `get_enabled_test_precisions` returns an error (the
source raises `ValueError`) — before any literal precision string is parsed,
and it never silently picks one of the keywords. -/
theorem C5_two_special_settings_raise
    (precisions_set : List (SpecialPrecisionSetting ⊕ String))
    (a b : SpecialPrecisionSetting) (ha : Sum.inl a ∈ precisions_set)
    (hb : Sum.inl b ∈ precisions_set) (hab : a ≠ b) :
    ∃ msg, get_enabled_test_precisions precisions_set = Except.error msg := by
  have hfa : a ∈ precisions_set.filterMap fun p =>
      match p with
      | Sum.inl s => some s
      | Sum.inr _ => none :=
    List.mem_filterMap.mpr ⟨Sum.inl a, ha, rfl⟩
  have hfb : b ∈ precisions_set.filterMap fun p =>
      match p with
      | Sum.inl s => some s
      | Sum.inr _ => none :=
    List.mem_filterMap.mpr ⟨Sum.inl b, hb, rfl⟩
  obtain ⟨x, y, t, hxy⟩ : ∃ x y t, (precisions_set.filterMap fun p =>
      match p with
      | Sum.inl s => some s
      | Sum.inr _ => none) = x :: y :: t := by
    rcases hl : precisions_set.filterMap fun p =>
        match p with
        | Sum.inl s => some s
        | Sum.inr _ => none with _ | ⟨x, rest⟩
    · rw [hl] at hfa
      cases hfa
    · rcases rest with _ | ⟨y, t⟩
      · rw [hl] at hfa hfb
        have ea : a = x := List.mem_singleton.mp hfa
        have eb : b = x := List.mem_singleton.mp hfb
        exact absurd (ea.trans eb.symm) hab
      · exact ⟨x, y, t, hl⟩
  refine ⟨"Multiple special settings found in precision list." ++
    "Cannot set both " ++ x.value ++ " and " ++ y.value ++ ".", ?_⟩
  simp only [get_enabled_test_precisions, hxy]

/-- Witness for C5: the override list `[DEFAULT, BENCH]` (two distinct special
keywords) makes `get_enabled_test_precisions` error out. -/
theorem C5_two_special_settings_raise_witness :
    (Sum.inl SpecialPrecisionSetting.DEFAULT ∈
      ([Sum.inl SpecialPrecisionSetting.DEFAULT,
        Sum.inl SpecialPrecisionSetting.BENCH] :
        List (SpecialPrecisionSetting ⊕ String))) ∧
    SpecialPrecisionSetting.DEFAULT ≠ SpecialPrecisionSetting.BENCH ∧
    ∃ msg, get_enabled_test_precisions
      [Sum.inl SpecialPrecisionSetting.DEFAULT,
        Sum.inl SpecialPrecisionSetting.BENCH] = Except.error msg :=
  ⟨List.mem_cons_self .., by decide,
    C5_two_special_settings_raise _ SpecialPrecisionSetting.DEFAULT
      SpecialPrecisionSetting.BENCH (List.mem_cons_self ..)
      (List.mem_cons_of_mem _ (List.mem_cons_self ..)) (by decide)⟩

theorem deviceTriples_mem {device_list : List ScorecardDevice}
    {precision : Precision} {sc_path : ScorecardPath}
    {t : Precision × ScorecardPath × ScorecardDevice}
    (h : t ∈ deviceTriples device_list precision sc_path) :
    t.1 = precision ∧ t.2.1 = sc_path ∧ t.2.2 ∈ device_list ∧
      (sc_path ∈ t.2.2.compile_paths ∨ sc_path ∈ t.2.2.profile_paths) := by
  simp only [deviceTriples, List.mem_filterMap] at h
  obtain ⟨device, hd, hsome⟩ := h
  split at hsome
  · cases hsome
  · split at hsome
    · cases hsome
    · rename_i hnotskip
      cases hsome
      refine ⟨rfl, rfl, hd, ?_⟩
      by_contra hcon
      push_neg at hcon
      exact hnotskip ⟨hcon.1, hcon.2⟩

theorem filteredPathList_no_timeout
    {all_paths : PathKind → Precision → Bool → List ScorecardPath}
    {supported_paths timeout_paths : List (Precision × List TargetRuntime)}
    {path_kind : PathKind} {iu aot genai : Bool} {precision : Precision}
    {path : ScorecardPath}
    (h : path ∈ filteredPathList all_paths supported_paths timeout_paths
      path_kind iu aot genai precision) :
    path.runtime ∉ dictGet timeout_paths precision := by
  simp only [filteredPathList] at h
  have h2 := (List.mem_filter.mp h).2
  simpa using h2

theorem mem_of_mem_ite_filters {α : Type} {l : List α} {c1 c2 : Prop}
    [Decidable c1] [Decidable c2] {f1 f2 f3 : α → Bool} {x : α}
    (h : x ∈ if c1 then l.filter f1 else
      if c2 then l.filter f2 else l.filter f3) :
    x ∈ l := by
  split at h
  · exact (List.mem_filter.mp h).1
  · split at h
    · exact (List.mem_filter.mp h).1
    · exact (List.mem_filter.mp h).1

theorem filteredPathList_mem_all_paths
    {all_paths : PathKind → Precision → Bool → List ScorecardPath}
    {supported_paths timeout_paths : List (Precision × List TargetRuntime)}
    {path_kind : PathKind} {iu aot genai : Bool} {precision : Precision}
    {path : ScorecardPath}
    (h : path ∈ filteredPathList all_paths supported_paths timeout_paths
      path_kind iu aot genai precision) :
    path ∈ all_paths path_kind precision genai := by
  simp only [filteredPathList] at h
  have h1 := (List.mem_filter.mp h).1
  split at h1
  · exact mem_of_mem_ite_filters (List.mem_filter.mp h1).1
  · exact mem_of_mem_ite_filters h1

/-- C1: for every call to `get_model_test_parameterizations`, and for every
precision `p` and runtime `r` listed in `timeout_paths[p]`, no returned triple
has precision `p` and a path whose runtime is `r` — regardless of the
`include_unsupported_paths` argument and of the ignore-known-failures
environment flag it defaults to. -/
theorem C1_timeout_runtimes_never_emitted
    (all_paths : PathKind → Precision → Bool → List ScorecardPath)
    (all_devices_not_mirror : List ScorecardDevice)
    (bench_w8a8_models bench_w8a16_models : List String)
    (special_precision_setting : Option SpecialPrecisionSetting)
    (extra_enabled_precisions : List Precision)
    (ignore_known_failures : Bool) (model_id : String)
    (supported_paths timeout_paths : List (Precision × List TargetRuntime))
    (path_kind : PathKind) (can_use_quantize_job : Bool)
    (devices : Option (List ScorecardDevice))
    (include_unsupported_paths : Option Bool)
    (requires_aot_prepare only_include_genai_paths : Bool)
    (p : Precision) (r : TargetRuntime)
    (hr : r ∈ dictGet timeout_paths p)
    (path : ScorecardPath) (d : ScorecardDevice)
    (hmem : (p, path, d) ∈ get_model_test_parameterizations all_paths
      all_devices_not_mirror bench_w8a8_models bench_w8a16_models
      special_precision_setting extra_enabled_precisions ignore_known_failures
      model_id supported_paths timeout_paths path_kind can_use_quantize_job
      devices include_unsupported_paths requires_aot_prepare
      only_include_genai_paths) :
    path.runtime ≠ r := by
  simp only [get_model_test_parameterizations, List.mem_flatMap] at hmem
  obtain ⟨prec, hprec, sp, hsp, htrip⟩ := hmem
  obtain ⟨h1, h2, h3, h4⟩ := deviceTriples_mem htrip
  have hp : p = prec := h1
  have hpath : path = sp := h2
  subst hp
  subst hpath
  intro heq
  exact filteredPathList_no_timeout hsp (heq.symm ▸ hr)

/-- C2: every triple returned by `get_model_test_parameterizations` has its
path in the device's path list of the kind selected by `path_type`: for the
compile path type the path is in that device's compile-paths, for the profile
path type in its profile-paths.  The hypotheses record what the missing
catalog guarantees by typing: `path_type.all_paths` returns members of
`path_type`, and every device's compile-path (resp. profile-path) list
contains only compile (resp. profile) paths. -/
theorem C2_path_in_path_type_relevant_device_list
    (all_paths : PathKind → Precision → Bool → List ScorecardPath)
    (all_devices_not_mirror : List ScorecardDevice)
    (bench_w8a8_models bench_w8a16_models : List String)
    (special_precision_setting : Option SpecialPrecisionSetting)
    (extra_enabled_precisions : List Precision)
    (ignore_known_failures : Bool) (model_id : String)
    (supported_paths timeout_paths : List (Precision × List TargetRuntime))
    (path_kind : PathKind) (can_use_quantize_job : Bool)
    (devices : Option (List ScorecardDevice))
    (include_unsupported_paths : Option Bool)
    (requires_aot_prepare only_include_genai_paths : Bool)
    (hcat : ∀ precision genai, ∀ q ∈ all_paths path_kind precision genai,
      q.kind = path_kind)
    (hdev : ∀ d2 ∈ effectiveDevices devices all_devices_not_mirror,
      (∀ q ∈ d2.compile_paths, q.kind = PathKind.compile) ∧
      (∀ q ∈ d2.profile_paths, q.kind = PathKind.profile))
    (p : Precision) (path : ScorecardPath) (d : ScorecardDevice)
    (hmem : (p, path, d) ∈ get_model_test_parameterizations all_paths
      all_devices_not_mirror bench_w8a8_models bench_w8a16_models
      special_precision_setting extra_enabled_precisions ignore_known_failures
      model_id supported_paths timeout_paths path_kind can_use_quantize_job
      devices include_unsupported_paths requires_aot_prepare
      only_include_genai_paths) :
    (path_kind = PathKind.compile → path ∈ d.compile_paths) ∧
    (path_kind = PathKind.profile → path ∈ d.profile_paths) := by
  simp only [get_model_test_parameterizations, List.mem_flatMap] at hmem
  obtain ⟨prec, hprec, sp, hsp, htrip⟩ := hmem
  obtain ⟨h1, h2, h3, h4⟩ := deviceTriples_mem htrip
  have hp : p = prec := h1
  have hpath : path = sp := h2
  subst hp
  subst hpath
  have hkind : path.kind = path_kind :=
    hcat p only_include_genai_paths path (filteredPathList_mem_all_paths hsp)
  obtain ⟨hccomp, hcprof⟩ := hdev d h3
  constructor
  · intro hpk
    rcases h4 with h | h
    · exact h
    · rw [hpk] at hkind
      exact absurd ((hcprof path h).symm.trans hkind) (by decide)
  · intro hpk
    rcases h4 with h | h
    · rw [hpk] at hkind
      exact absurd ((hccomp path h).symm.trans hkind) (by decide)
    · exact h

/-- Witness for C1: a concrete run with `timeout_paths = {w8a8: [ONNX]}` and
`include_unsupported_paths = True` in which the returned triple's runtime is
TFLITE, not the timed-out ONNX. -/
theorem C1_timeout_runtimes_never_emitted_witness :
    TargetRuntime.ONNX ∈
      dictGet [(Precision.w8a8, [TargetRuntime.ONNX])] Precision.w8a8 ∧
    (Precision.w8a8, tflitePath, exampleDevice) ∈
      get_model_test_parameterizations exampleAllPaths [] [] [] none
        [Precision.w8a8] false "m" [(Precision.w8a8, [TargetRuntime.TFLITE])]
        [(Precision.w8a8, [TargetRuntime.ONNX])] PathKind.compile true
        (some [exampleDevice]) (some true) false false ∧
    tflitePath.runtime ≠ TargetRuntime.ONNX := by
  have hres : get_model_test_parameterizations exampleAllPaths [] [] [] none
      [Precision.w8a8] false "m" [(Precision.w8a8, [TargetRuntime.TFLITE])]
      [(Precision.w8a8, [TargetRuntime.ONNX])] PathKind.compile true
      (some [exampleDevice]) (some true) false false =
      [(Precision.w8a8, tflitePath, exampleDevice)] := rfl
  refine ⟨by decide, ?_, ?_⟩
  · rw [hres]
    exact List.mem_singleton.mpr rfl
  · exact C1_timeout_runtimes_never_emitted exampleAllPaths [] [] [] none
      [Precision.w8a8] false "m" [(Precision.w8a8, [TargetRuntime.TFLITE])]
      [(Precision.w8a8, [TargetRuntime.ONNX])] PathKind.compile true
      (some [exampleDevice]) (some true) false false Precision.w8a8
      TargetRuntime.ONNX (by decide) tflitePath exampleDevice
      (by rw [hres]; exact List.mem_singleton.mpr rfl)

/-- Witness for C2: in the same concrete run, the returned triple's path is
in the device's compile-path list (the list relevant to the compile path
type). -/
theorem C2_path_in_path_type_relevant_device_list_witness :
    (PathKind.compile = PathKind.compile →
      tflitePath ∈ exampleDevice.compile_paths) ∧
    (PathKind.compile = PathKind.profile →
      tflitePath ∈ exampleDevice.profile_paths) := by
  have hres : get_model_test_parameterizations exampleAllPaths [] [] [] none
      [Precision.w8a8] false "m" [(Precision.w8a8, [TargetRuntime.TFLITE])]
      [] PathKind.compile true (some [exampleDevice]) (some false) false
      false = [(Precision.w8a8, tflitePath, exampleDevice)] := rfl
  exact C2_path_in_path_type_relevant_device_list exampleAllPaths [] [] []
    none [Precision.w8a8] false "m"
    [(Precision.w8a8, [TargetRuntime.TFLITE])] [] PathKind.compile true
    (some [exampleDevice]) (some false) false false
    (by
      intro _ _ q hq
      simp only [exampleAllPaths] at hq
      rcases List.mem_cons.mp hq with rfl | hq
      · rfl
      · rcases List.mem_cons.mp hq with rfl | hq
        · rfl
        · cases hq)
    (by
      intro d2 hd2
      have : d2 = exampleDevice := List.mem_singleton.mp hd2
      subst this
      exact ⟨by decide, by decide⟩)
    Precision.w8a8 tflitePath exampleDevice
    (by rw [hres]; exact List.mem_singleton.mpr rfl)

theorem filteredPathList_nodup
    {all_paths : PathKind → Precision → Bool → List ScorecardPath}
    {supported_paths timeout_paths : List (Precision × List TargetRuntime)}
    {path_kind : PathKind} {iu aot genai : Bool} {precision : Precision}
    (h : (all_paths path_kind precision genai).Nodup) :
    (filteredPathList all_paths supported_paths timeout_paths path_kind iu
      aot genai precision).Nodup := by
  simp only [filteredPathList]
  repeat'
    first
    | exact h
    | apply List.Nodup.filter
    | apply nodup_ite

theorem deviceEmit_eq {precision : Precision} {sc_path : ScorecardPath}
    {d : ScorecardDevice} {t : Precision × ScorecardPath × ScorecardDevice}
    (h : t ∈ (if ! d.enabled || ! d.npu_supports_precision precision then none
      else if sc_path ∉ d.compile_paths ∧ sc_path ∉ d.profile_paths then
        (none : Option (Precision × ScorecardPath × ScorecardDevice))
      else some (precision, sc_path, d))) :
    t = (precision, sc_path, d) := by
  split at h
  · cases h
  · split at h
    · cases h
    · exact (Option.mem_some_iff.mp h).symm

theorem deviceTriples_nodup {device_list : List ScorecardDevice}
    {precision : Precision} {sc_path : ScorecardPath}
    (h : device_list.Nodup) :
    (deviceTriples device_list precision sc_path).Nodup := by
  refine List.Nodup.filterMap ?_ h
  intro d1 d2 t h1 h2
  exact congrArg (fun z => z.2.2) ((deviceEmit_eq h1).symm.trans (deviceEmit_eq h2))

theorem innerTriples_fst
    {all_paths : PathKind → Precision → Bool → List ScorecardPath}
    {supported_paths timeout_paths : List (Precision × List TargetRuntime)}
    {path_kind : PathKind} {iu aot genai : Bool}
    {device_list : List ScorecardDevice} {p : Precision}
    {t : Precision × ScorecardPath × ScorecardDevice}
    (h : t ∈ (filteredPathList all_paths supported_paths timeout_paths
      path_kind iu aot genai p).flatMap fun sc_path =>
        deviceTriples device_list p sc_path) :
    t.1 = p := by
  obtain ⟨sp, _, ht⟩ := List.mem_flatMap.mp h
  exact (deviceTriples_mem ht).1

/-- Counterexample to C4 as stated: an explicit `devices` list that names the
same device twice makes the returned list contain each triple twice — the
source performs no deduplication over the caller-supplied device list. -/
theorem C4_duplicate_triples_counterexample :
    ¬ (get_model_test_parameterizations exampleAllPaths [] [] [] none
        [Precision.w8a8] false "m"
        [(Precision.w8a8, [TargetRuntime.TFLITE, TargetRuntime.ONNX])] []
        PathKind.compile true (some [exampleDevice, exampleDevice])
        (some false) false false).Nodup := by
  intro h
  have hres : get_model_test_parameterizations exampleAllPaths [] [] [] none
      [Precision.w8a8] false "m"
      [(Precision.w8a8, [TargetRuntime.TFLITE, TargetRuntime.ONNX])] []
      PathKind.compile true (some [exampleDevice, exampleDevice])
      (some false) false false =
      [(Precision.w8a8, tflitePath, exampleDevice),
        (Precision.w8a8, tflitePath, exampleDevice),
        (Precision.w8a8, onnxPath, exampleDevice),
        (Precision.w8a8, onnxPath, exampleDevice)] := rfl
  rw [hres] at h
  exact (List.nodup_cons.mp h).1 (List.mem_cons_self ..)

/-- C4 amended: the returned list of `get_model_test_parameterizations`
contains no duplicate triples, provided the catalog path enumeration and the
device list in effect (the explicit `devices` argument when non-empty,
otherwise the catalog device enumeration) contain no duplicates.  The
original claim admitted any explicit devices list; a devices list repeating a
device yields repeated triples (see the counterexample). -/
theorem C4_no_duplicate_triples_amended
    (all_paths : PathKind → Precision → Bool → List ScorecardPath)
    (all_devices_not_mirror : List ScorecardDevice)
    (bench_w8a8_models bench_w8a16_models : List String)
    (special_precision_setting : Option SpecialPrecisionSetting)
    (extra_enabled_precisions : List Precision)
    (ignore_known_failures : Bool) (model_id : String)
    (supported_paths timeout_paths : List (Precision × List TargetRuntime))
    (path_kind : PathKind) (can_use_quantize_job : Bool)
    (devices : Option (List ScorecardDevice))
    (include_unsupported_paths : Option Bool)
    (requires_aot_prepare only_include_genai_paths : Bool)
    (hpaths : ∀ precision, (all_paths path_kind precision
      only_include_genai_paths).Nodup)
    (hdevs : (effectiveDevices devices all_devices_not_mirror).Nodup) :
    (get_model_test_parameterizations all_paths all_devices_not_mirror
      bench_w8a8_models bench_w8a16_models special_precision_setting
      extra_enabled_precisions ignore_known_failures model_id supported_paths
      timeout_paths path_kind can_use_quantize_job devices
      include_unsupported_paths requires_aot_prepare
      only_include_genai_paths).Nodup := by
  simp only [get_model_test_parameterizations]
  refine List.nodup_flatMap.mpr ⟨?_, ?_⟩
  · intro prec hprec
    refine List.nodup_flatMap.mpr ⟨?_, ?_⟩
    · intro sp hsp
      exact deviceTriples_nodup hdevs
    · refine List.Pairwise.imp ?_ (filteredPathList_nodup (hpaths prec))
      intro sp1 sp2 hne t ht1 ht2
      exact hne (((deviceTriples_mem ht1).2.1).symm.trans
        (deviceTriples_mem ht2).2.1)
  · refine List.Pairwise.imp ?_ (get_model_test_precisions_nodup
      bench_w8a8_models bench_w8a16_models special_precision_setting
      extra_enabled_precisions model_id (supported_paths.map Prod.fst)
      can_use_quantize_job)
    intro p1 p2 hne t ht1 ht2
    exact hne ((innerTriples_fst ht1).symm.trans (innerTriples_fst ht2))

/-- Witness for the amended C4: a concrete run with a duplicate-free explicit
devices list whose result has no duplicate triples. -/
theorem C4_no_duplicate_triples_amended_witness :
    (get_model_test_parameterizations exampleAllPaths [] [] [] none
      [Precision.w8a8] false "m"
      [(Precision.w8a8, [TargetRuntime.TFLITE, TargetRuntime.ONNX])] []
      PathKind.compile true (some [exampleDevice]) (some false) false
      false).Nodup :=
  C4_no_duplicate_triples_amended exampleAllPaths [] [] [] none
    [Precision.w8a8] false "m"
    [(Precision.w8a8, [TargetRuntime.TFLITE, TargetRuntime.ONNX])] []
    PathKind.compile true (some [exampleDevice]) (some false) false false
    (fun _ => by
      show ([tflitePath, onnxPath] : List ScorecardPath).Nodup
      decide)
    (List.nodup_singleton exampleDevice)
